import Mathlib

/-!
Verification development for the fantoccini WebDriver client core
(`src/client.rs`).

The JSON data model is a shallow embedding of `serde_json::Value`: objects
are association lists of string keys (serde's `Map` is a finite map; the
list order is our representation of it), numbers are modelled as integers
(no claim here depends on floating-point numbers).  External collaborators
of the crate — the `url` crate's parse/join, the `cookie` crate's
percent-encoding, the `base64` decoder, and the HTTP transport — are
parameters of the corresponding model functions, exactly at the boundary
where `client.rs` calls into them.
-/

namespace Fantoccini

/-- Shallow embedding of `serde_json::Value` (numbers restricted to
integers; no claim below depends on float payloads). -/
inductive Json where
  | null : Json
  | bool (b : Bool) : Json
  | num (n : Int) : Json
  | str (s : String) : Json
  | arr (elems : List Json) : Json
  | obj (fields : List (String × Json)) : Json

/-- Key membership in a JSON object, as `serde_json::Map::contains_key`. -/
def containsKey (o : List (String × Json)) (k : String) : Bool :=
  o.any (fun kv => kv.1 = k)

/-- Key lookup in a JSON object (first binding), as indexing /
`Map::get`. -/
def lookupKey (o : List (String × Json)) (k : String) : Option Json :=
  match o with
  | [] => none
  | kv :: rest => if kv.1 = k then some kv.2 else lookupKey rest k

/-- Removal of a key's binding, the removal part of `Map::remove`. -/
def eraseKey (o : List (String × Json)) (k : String) : List (String × Json) :=
  match o with
  | [] => []
  | kv :: rest => if kv.1 = k then rest else kv :: eraseKey rest k

/-- `Map::insert`: replace the binding when the key is present, append
otherwise. -/
def insertKey (o : List (String × Json)) (k : String) (v : Json) :
    List (String × Json) :=
  match o with
  | [] => [(k, v)]
  | kv :: rest =>
    if kv.1 = k then (k, v) :: rest else kv :: insertKey rest k v

/-- `Value::is_array`. -/
def Json.isArr : Json → Bool
  | .arr _ => true
  | _ => false

/-- `Value::is_object`. -/
def Json.isObj : Json → Bool
  | .obj _ => true
  | _ => false

/-- `Value::as_str().is_some()` / `Value::is_string`. -/
def Json.isString : Json → Bool
  | .str _ => true
  | _ => false

/-- `Value::as_u64`: defined exactly on integers representable as `u64`. -/
def Json.asU64 : Json → Option Nat
  | .num n => if 0 ≤ n ∧ n < 2 ^ 64 then some n.toNat else none
  | _ => none

/-- Modelled from the spec: the command-error taxonomy of §7
(`error::CmdError` lives in `src/error.rs`, which is not among the given
sources; the variants used by `client.rs` are `NotW3C`, `NoSuchElement`,
`ImageDecodeError`, and the URL-failure kind, with the remaining kinds
listed in §7). -/
inductive CmdError where
  | NotW3C (v : Json) : CmdError
  | NoSuchElement (details : String) : CmdError
  | NoSuchWindow (details : String) : CmdError
  | NoSuchFrame (details : String) : CmdError
  | StaleElementReference (details : String) : CmdError
  | ElementNotInteractable (details : String) : CmdError
  | InvalidSelector (details : String) : CmdError
  | InvalidArgument (details : String) : CmdError
  | JavascriptError (details : String) : CmdError
  | Timeout : CmdError
  | UnexpectedAlertOpen : CmdError
  | UnknownError (name msg : String) : CmdError
  | InvalidUrl (msg : String) : CmdError
  | ImageDecodeError : CmdError
  | SessionClosed : CmdError
  | Lost : CmdError

/-- `webdriver::common::WebElement`: an opaque element-id string. -/
structure WebElement where
  id : String
deriving DecidableEq

/-- `webdriver::common::ELEMENT_KEY`, the W3C element-identifier key. -/
def elementKey : String := "element-6066-11e4-a52e-4f735466cecf"

/-- `Client::parse_lookup` (`client.rs:835-866`): extract the `WebElement`
from a `FindElement` / `GetActiveElement` response value.  `is_legacy`
selects the dialect key; the non-object, missing-key and non-string-id
cases produce `NotW3C` carrying the value, where in the non-string-id
case the source has removed and re-inserted the key's binding. -/
def parse_lookup (is_legacy : Bool) (res : Json) :
    Except CmdError WebElement :=
  match res with
  | .obj o =>
    let key := if is_legacy then "ELEMENT" else elementKey
    if containsKey o key then
      match lookupKey o key with
      | some (.str wei) => .ok ⟨wei⟩
      | some v => .error (.NotW3C (.obj (insertKey (eraseKey o key) key v)))
      | none => .error (.NotW3C (.obj o))
    else
      .error (.NotW3C (.obj o))
  | v => .error (.NotW3C v)

/-- The loop body of `Client::parse_lookup_all` (`client.rs:869-885`):
parse each entry of the response array in order, aborting at the first
failure (the source's `?` inside the `for` loop). -/
def lookupAllLoop (is_legacy : Bool) : List Json → Except CmdError (List WebElement)
  | [] => .ok []
  | j :: rest =>
    match parse_lookup is_legacy j with
    | .error e => .error e
    | .ok e =>
      match lookupAllLoop is_legacy rest with
      | .error e2 => .error e2
      | .ok es => .ok (e :: es)

/-- `Client::parse_lookup_all` (`client.rs:869-885`): a non-array response
is `NotW3C`; otherwise every entry goes through `parse_lookup`. -/
def parse_lookup_all (is_legacy : Bool) (res : Json) :
    Except CmdError (List WebElement) :=
  match res with
  | .arr a => lookupAllLoop is_legacy a
  | v => .error (.NotW3C v)

/-- `Client::find_all` (`client.rs:467-479`), from the outcome of issuing
`FindElements` (the HTTP exchange is the actor's job; its outcome is the
argument here). -/
def find_all (is_legacy : Bool) (resp : Except CmdError Json) :
    Except CmdError (List WebElement) :=
  match resp with
  | .error e => .error e
  | .ok res => parse_lookup_all is_legacy res

/-- The per-argument body of `Client::fixup_elements` (`client.rs:887-899`):
a top-level object carrying the W3C element key has that binding removed
and re-inserted under `"ELEMENT"`; everything else is untouched. -/
def fixup_one (arg : Json) : Json :=
  match arg with
  | .obj o =>
    match lookupKey o elementKey with
    | some wei => .obj (insertKey (eraseKey o elementKey) "ELEMENT" wei)
    | none => .obj o
  | v => v

/-- `Client::fixup_elements` (`client.rs:887-899`): in the legacy dialect
each script argument is rewritten by `fixup_one`; in W3C the arguments are
left alone. -/
def fixup_elements (is_legacy : Bool) (args : List Json) : List Json :=
  if is_legacy then args.map fixup_one else args

/-- Discriminator for the `NoSuchElement` error kind, the pattern matched
by `wait_for_find`'s retry arm. -/
def CmdError.isNoSuchElement : CmdError → Bool
  | .NoSuchElement _ => true
  | _ => false

/-- `Client::by` (`client.rs:822-832`): issue `FindElement` (outcome given)
and parse the response. -/
def byOutcome (is_legacy : Bool) (resp : Except CmdError Json) :
    Except CmdError WebElement :=
  match resp with
  | .error e => .error e
  | .ok res => parse_lookup is_legacy res

/-- `Client::wait_for_find` (`client.rs:664-679`): loop `by` with the same
locator; retry on `NoSuchElement`, stop on anything else.  Each list entry
is the server's outcome of one `FindElement` issue; `none` means the given
outcomes were exhausted without the loop terminating. -/
def wait_for_find (is_legacy : Bool) :
    List (Except CmdError Json) → Option (Except CmdError WebElement)
  | [] => none
  | r :: rest =>
    match byOutcome is_legacy r with
    | .ok e => some (.ok e)
    | .error err =>
      if err.isNoSuchElement then wait_for_find is_legacy rest
      else some (.error err)

/-- `Client::current_url_` (`client.rs:174-182`): a string response is
parsed as a URL, with the empty string replaced by `about:blank` first; a
non-string response is `NotW3C`.  `parse` is the `url` crate's parser, a
boundary parameter. -/
def current_url_ {U : Type} (parse : String → Except CmdError U)
    (resp : Json) : Except CmdError U :=
  match resp with
  | .str u => parse (if u = "" then "about:blank" else u)
  | v => .error (.NotW3C v)

/-- `Client::goto` (`client.rs:154-163`): the URL of the issued `Get`
command — the user URL joined onto the current URL.  `parse`, `join` and
`toStr` are the `url` crate's operations, boundary parameters. -/
def goto_target {U : Type} (parse : String → Except CmdError U)
    (join : U → String → Except CmdError U) (toStr : U → String)
    (resp : Json) (url : String) : Except CmdError String :=
  match current_url_ parse resp with
  | .error e => .error e
  | .ok base =>
    match join base url with
    | .error e => .error e
    | .ok u => .ok (toStr u)

/-- `Client::get_window_rect` (`client.rs:363-390`): read `x`, `y`,
`width`, `height` from the response object via `remove(...).and_then(as_u64)`
in that order; the `NotW3C` payload carries the object with the bindings
removed so far. -/
def get_window_rect (res : Json) : Except CmdError (Nat × Nat × Nat × Nat) :=
  match res with
  | .obj o =>
    let o1 := eraseKey o "x"
    match (lookupKey o "x").bind Json.asU64 with
    | none => .error (.NotW3C (.obj o1))
    | some x =>
      let o2 := eraseKey o1 "y"
      match (lookupKey o1 "y").bind Json.asU64 with
      | none => .error (.NotW3C (.obj o2))
      | some y =>
        let o3 := eraseKey o2 "width"
        match (lookupKey o2 "width").bind Json.asU64 with
        | none => .error (.NotW3C (.obj o3))
        | some width =>
          let o4 := eraseKey o3 "height"
          match (lookupKey o3 "height").bind Json.asU64 with
          | none => .error (.NotW3C (.obj o4))
          | some height => .ok (x, y, width, height)
  | v => .error (.NotW3C v)

/-- `Client::get_window_size` (`client.rs:418-421`): destructure
`get_window_rect`'s result, keeping width and height. -/
def get_window_size (res : Json) : Except CmdError (Nat × Nat) :=
  match get_window_rect res with
  | .error e => .error e
  | .ok (_, _, width, height) => .ok (width, height)

/-- `Client::get_window_position` (`client.rs:445-448`): destructure
`get_window_rect`'s result, keeping x and y. -/
def get_window_position (res : Json) : Except CmdError (Nat × Nat) :=
  match get_window_rect res with
  | .error e => .error e
  | .ok (x, y, _, _) => .ok (x, y)

/-- `webdriver::command::WindowRectParameters` as constructed by
`client.rs` (an `Option` field serialises to JSON `null` when `none`). -/
structure WindowRectParameters where
  x : Option Int
  y : Option Int
  width : Option Int
  height : Option Int
deriving DecidableEq

/-- The `SetWindowRect` wire command carrying its parameters. -/
inductive WindowCommand where
  | SetWindowRect (p : WindowRectParameters) : WindowCommand
deriving DecidableEq

/-- Rust's `u32 as i32` cast (two's-complement reinterpretation). -/
def u32AsI32 (n : Nat) : Int :=
  let m : Nat := n % 2 ^ 32
  if m < 2 ^ 31 then (m : Int) else (m : Int) - 2 ^ 32

/-- `Client::set_window_rect` (`client.rs:340-356`): all four fields
populated. -/
def set_window_rect_cmd (x y width height : Nat) : WindowCommand :=
  .SetWindowRect
    ⟨some (u32AsI32 x), some (u32AsI32 y),
      some (u32AsI32 width), some (u32AsI32 height)⟩

/-- `Client::set_window_size` (`client.rs:397-411`): `x` and `y` are
`None`, only the dimensions populated. -/
def set_window_size_cmd (width height : Nat) : WindowCommand :=
  .SetWindowRect ⟨none, none, some (u32AsI32 width), some (u32AsI32 height)⟩

/-- `Client::set_window_position` (`client.rs:428-438`): `width` and
`height` are `None`, only the coordinates populated. -/
def set_window_position_cmd (x y : Nat) : WindowCommand :=
  .SetWindowRect ⟨some (u32AsI32 x), some (u32AsI32 y), none, none⟩

/-- `Client::screenshot` (`client.rs:611-618`), given the response value;
`decode` is the `base64` crate's decoder, a boundary parameter (bytes as
naturals). -/
def screenshot (decode : String → Option (List Nat)) (src : Json) :
    Except CmdError (List Nat) :=
  match src with
  | .str s =>
    match decode s with
    | some bytes => .ok bytes
    | none => .error .ImageDecodeError
  | v => .error (.NotW3C v)

/-- `Client::screenshot_element` (`client.rs:626-638`): same decoding path
as `screenshot`, applied to the `TakeElementScreenshot` response. -/
def screenshot_element (decode : String → Option (List Nat)) (src : Json) :
    Except CmdError (List Nat) :=
  match src with
  | .str s =>
    match decode s with
    | some bytes => .ok bytes
    | none => .error .ImageDecodeError
  | v => .error (.NotW3C v)

/-- The cookie-validation checks of `with_raw_client_for`'s loop
(`client.rs:765-795`): an entry passes iff it is an object whose `name`
and `value` are strings; the passing entry's name/value pair is
returned. -/
def cookieNV (c : Json) : Option (String × String) :=
  match c with
  | .obj o =>
    match lookupKey o "name", lookupKey o "value" with
    | some (.str n), some (.str v) => some (n, v)
    | _, _ => none
  | _ => none

/-- A cookie entry is well-formed when the loop's checks all pass. -/
def wellFormedCookie (c : Json) : Bool :=
  (cookieNV c).isSome

/-- The jar entry for one cookie:
`cookie::Cookie::new(name, value).encoded().to_string()`, with `enc` the
`cookie` crate's percent-encoding, a boundary parameter applied to name
and value. -/
def cookiePair (enc : String → String) (c : Json) : String :=
  match cookieNV c with
  | some (n, v) => enc n ++ "=" ++ enc v
  | none => ""

/-- The cookie loop of `with_raw_client_for` (`client.rs:763-799`): build
the jar in list order; any malformed entry fails the whole pass (`all_ok =
false` in the source). -/
def buildJar (enc : String → String) : List Json → Option (List String)
  | [] => some []
  | c :: rest =>
    match cookieNV c with
    | none => none
    | some (n, v) =>
      match buildJar enc rest with
      | none => none
      | some jar => some ((enc n ++ "=" ++ enc v) :: jar)

/-- The raw HTTP request assembled by `with_raw_client_for`
(`client.rs:801-809`): method, target URI, the joined `Cookie` header, and
the optional `User-Agent` header. -/
structure RawRequest where
  method : String
  uri : String
  cookie : String
  userAgent : Option String
deriving DecidableEq

/-- One step of the raw-request choreography, as observed on the session:
each constructor records one call `with_raw_client_for` makes through the
actor. -/
inductive IssuedCmd where
  | currentUrl : IssuedCmd
  | goto (url : String) : IssuedCmd
  | getCookies : IssuedCmd
  | back : IssuedCmd
  | getUa : IssuedCmd
  | raw (req : RawRequest) : IssuedCmd
deriving DecidableEq

/-- The session's answers to the choreography's steps: the environment
`with_raw_client_for` runs against (`ρ` is the transport's response
type). -/
structure RawEnv (ρ : Type) where
  currentUrl : Except CmdError String
  gotoResult : Except CmdError Unit
  cookiesResult : Except CmdError Json
  backResult : Except CmdError Unit
  uaResult : Except CmdError (Option String)
  rawResult : RawRequest → Except CmdError ρ

/-- `Client::with_raw_client_for` (`client.rs:725-817`): the full
choreography — current URL, join to the target, join to the decoy path,
`goto` the decoy, `GetCookies` (a non-array reply is `NotW3C` *before*
`Back` is issued; the source marks this with a TODO), `Back`, `GetUa`,
cookie validation and jar building, then the raw request (after the
caller's `before` hook).  Returns the trace of issued steps together with
the result.  `join` is the `url` crate's join on already-parsed URLs and
`enc` the cookie encoding, boundary parameters; each `goto`/`back`/`get_ua`
sub-call is one traced step whose outcome the environment supplies. -/
def with_raw_client_for {ρ : Type} (join : String → String → Except CmdError String)
    (enc : String → String) (before : RawRequest → RawRequest)
    (method url : String) (env : RawEnv ρ) :
    List IssuedCmd × Except CmdError ρ :=
  match env.currentUrl with
  | .error e => ([.currentUrl], .error e)
  | .ok old =>
    match join old url with
    | .error e => ([.currentUrl], .error e)
    | .ok target =>
      match join target "/please_give_me_your_cookies" with
      | .error e => ([.currentUrl], .error e)
      | .ok decoy =>
        match env.gotoResult with
        | .error e => ([.currentUrl, .goto decoy], .error e)
        | .ok _ =>
          match env.cookiesResult with
          | .error e => ([.currentUrl, .goto decoy, .getCookies], .error e)
          | .ok cookies =>
            match cookies with
            | .arr cs =>
              match env.backResult with
              | .error e =>
                ([.currentUrl, .goto decoy, .getCookies, .back], .error e)
              | .ok _ =>
                match env.uaResult with
                | .error e =>
                  ([.currentUrl, .goto decoy, .getCookies, .back, .getUa],
                    .error e)
                | .ok ua =>
                  match buildJar enc cs with
                  | none =>
                    ([.currentUrl, .goto decoy, .getCookies, .back, .getUa],
                      .error (.NotW3C (.arr cs)))
                  | some jar =>
                    let req := before
                      ⟨method, target, String.intercalate "; " jar, ua⟩
                    ([.currentUrl, .goto decoy, .getCookies, .back, .getUa,
                        .raw req],
                      env.rawResult req)
            | v =>
              ([.currentUrl, .goto decoy, .getCookies],
                .error (.NotW3C v))

/-! ## Helper lemmas -/

theorem containsKey_eq_isSome (o : List (String × Json)) (k : String) :
    containsKey o k = (lookupKey o k).isSome := by
  induction o with
  | nil => rfl
  | cons kv rest ih =>
    by_cases h : kv.1 = k
    · simp [containsKey, lookupKey, h]
    · simp only [containsKey, List.any_cons, lookupKey, if_neg h,
        decide_eq_false h, Bool.false_or]
      simpa [containsKey] using ih

theorem lookupKey_insertKey_self (l : List (String × Json)) (k : String)
    (v : Json) : lookupKey (insertKey l k v) k = some v := by
  induction l with
  | nil => simp [insertKey, lookupKey]
  | cons kv rest ih =>
    by_cases h : kv.1 = k <;> simp [insertKey, lookupKey, h, ih]

theorem mem_of_lookupKey_some (l : List (String × Json)) (k : String)
    (v : Json) (h : lookupKey l k = some v) : k ∈ l.map Prod.fst := by
  induction l with
  | nil => simp [lookupKey] at h
  | cons kv rest ih =>
    by_cases hk : kv.1 = k
    · simp [hk]
    · simp only [lookupKey, if_neg hk] at h
      simp [ih h]

theorem containsKey_insertKey_ne (l : List (String × Json)) (k k' : String)
    (v : Json) (h : k' ≠ k) :
    containsKey (insertKey l k v) k' = containsKey l k' := by
  induction l with
  | nil => simp [insertKey, containsKey, Ne.symm h]
  | cons kv rest ih =>
    by_cases hk : kv.1 = k
    · subst hk
      simp [insertKey, containsKey, Ne.symm h]
    · simp only [insertKey, if_neg hk, containsKey, List.any_cons]
      simp only [containsKey] at ih
      rw [ih]

theorem containsKey_eraseKey_nodup (l : List (String × Json)) (k : String)
    (h : (l.map Prod.fst).Nodup) : containsKey (eraseKey l k) k = false := by
  induction l with
  | nil => rfl
  | cons kv rest ih =>
    simp only [List.map_cons, List.nodup_cons] at h
    by_cases hk : kv.1 = k
    · subst hk
      have he : eraseKey (kv :: rest) kv.1 = rest := by simp [eraseKey]
      rw [he, containsKey_eq_isSome]
      cases hl : lookupKey rest kv.1 with
      | none => rfl
      | some v => exact absurd (mem_of_lookupKey_some rest kv.1 v hl) h.1
    · simp only [eraseKey, if_neg hk, containsKey, List.any_cons,
        decide_eq_false hk, Bool.false_or]
      simp only [containsKey] at ih
      exact ih h.2

theorem buildJar_all_wf (enc : String → String) (cs : List Json)
    (h : cs.all wellFormedCookie = true) :
    buildJar enc cs = some (cs.map (cookiePair enc)) := by
  induction cs with
  | nil => rfl
  | cons c rest ih =>
    simp only [List.all_cons, Bool.and_eq_true] at h
    have hc := h.1
    unfold wellFormedCookie at hc
    cases hnv : cookieNV c with
    | none => rw [hnv] at hc; simp at hc
    | some nv =>
      obtain ⟨n, v⟩ := nv
      simp [buildJar, hnv, ih h.2, cookiePair]

theorem buildJar_not_wf (enc : String → String) (cs : List Json)
    (h : cs.all wellFormedCookie = false) : buildJar enc cs = none := by
  induction cs with
  | nil => simp [List.all_nil] at h
  | cons c rest ih =>
    cases hnv : cookieNV c with
    | none => simp [buildJar, hnv]
    | some nv =>
      obtain ⟨n, v⟩ := nv
      have hrest : rest.all wellFormedCookie = false := by
        have hc : wellFormedCookie c = true := by
          simp [wellFormedCookie, hnv]
        simpa [List.all_cons, hc] using h
      simp [buildJar, hnv, ih hrest]

theorem parse_lookup_error_notW3C (is_legacy : Bool) (j : Json) (e : CmdError)
    (h : parse_lookup is_legacy j = .error e) : ∃ v, e = .NotW3C v := by
  simp only [parse_lookup] at h
  repeat' split at h
  all_goals first
    | exact ⟨_, (Except.error.inj h).symm⟩
    | exact absurd h (by simp)

theorem lookupAllLoop_ok_iff (is_legacy : Bool) (xs : List Json)
    (es : List WebElement) :
    lookupAllLoop is_legacy xs = .ok es ↔
      List.Forall₂ (fun j e => parse_lookup is_legacy j = .ok e) xs es := by
  induction xs generalizing es with
  | nil =>
    cases es <;> simp [lookupAllLoop]
  | cons j rest ih =>
    constructor
    · intro h
      unfold lookupAllLoop at h
      cases hp : parse_lookup is_legacy j with
      | error e => rw [hp] at h; exact absurd h (by simp)
      | ok e =>
        rw [hp] at h
        cases hr : lookupAllLoop is_legacy rest with
        | error e2 => rw [hr] at h; exact absurd h (by simp)
        | ok es' =>
          rw [hr] at h
          simp only [Except.ok.injEq] at h
          subst h
          exact List.Forall₂.cons hp ((ih es').mp hr)
    · intro h
      cases h with
      | cons hp hrest =>
        unfold lookupAllLoop
        rw [hp, (ih _).mpr hrest]

theorem lookupAllLoop_error (is_legacy : Bool) (xs : List Json) (e : CmdError)
    (h : lookupAllLoop is_legacy xs = .error e) :
    (∃ v, e = .NotW3C v) ∧ ∃ j ∈ xs, parse_lookup is_legacy j = .error e := by
  induction xs with
  | nil => exact absurd h (by simp [lookupAllLoop])
  | cons j rest ih =>
    unfold lookupAllLoop at h
    cases hp : parse_lookup is_legacy j with
    | error e' =>
      rw [hp] at h
      have he : e = e' := (Except.error.inj h).symm
      subst he
      exact ⟨parse_lookup_error_notW3C is_legacy j e hp, j, by simp, hp⟩
    | ok e' =>
      rw [hp] at h
      cases hr : lookupAllLoop is_legacy rest with
      | error e2 =>
        rw [hr] at h
        have he : e = e2 := (Except.error.inj h).symm
        subst he
        obtain ⟨hw, j', hj', hpe⟩ := ih hr
        exact ⟨hw, j', by simp [hj'], hpe⟩
      | ok es => rw [hr] at h; exact absurd h (by simp)

/-! ## Claim theorems -/

/-- C2 (counterexample): the claim says the client accepts *either*
element-identifier key once the dialect is detected; in fact
`parse_lookup` rejects the key of the other dialect with `NotW3C` in both
directions — a W3C session does not accept `ELEMENT`, a legacy session
does not accept the W3C key. -/
theorem parse_lookup_rejects_unmatched_key :
    parse_lookup false (Json.obj [("ELEMENT", Json.str "E-1")]) =
      .error (.NotW3C (Json.obj [("ELEMENT", Json.str "E-1")])) ∧
    parse_lookup true (Json.obj [(elementKey, Json.str "E-1")]) =
      .error (.NotW3C (Json.obj [(elementKey, Json.str "E-1")])) :=
  ⟨rfl, rfl⟩

/-- C2 (amended): when decoding an element response, `parse_lookup`
accepts exactly the dialect-matching key — `ELEMENT` when legacy, the W3C
key otherwise — returning the element's id string when that key maps to a
string; an object without that key (or whose id is not a string), and any
non-object response, yields `NotW3C` with the offending value (the
non-string-id payload carries the same bindings, with the key's binding
re-inserted). -/
theorem parse_lookup_dialect_key_spec (is_legacy : Bool)
    (o : List (String × Json)) :
    (∀ s, lookupKey o (if is_legacy then "ELEMENT" else elementKey) =
        some (.str s) →
      parse_lookup is_legacy (.obj o) = .ok ⟨s⟩) ∧
    (lookupKey o (if is_legacy then "ELEMENT" else elementKey) = none →
      parse_lookup is_legacy (.obj o) = .error (.NotW3C (.obj o))) ∧
    (∀ v, lookupKey o (if is_legacy then "ELEMENT" else elementKey) =
        some v → v.isString = false →
      parse_lookup is_legacy (.obj o) =
        .error (.NotW3C (.obj (insertKey
          (eraseKey o (if is_legacy then "ELEMENT" else elementKey))
          (if is_legacy then "ELEMENT" else elementKey) v)))) ∧
    (∀ j : Json, j.isObj = false →
      parse_lookup is_legacy j = .error (.NotW3C j)) := by
  refine ⟨?_, ?_, ?_, ?_⟩
  · intro s h
    simp [parse_lookup, containsKey_eq_isSome, h]
  · intro h
    simp [parse_lookup, containsKey_eq_isSome, h]
  · intro v h hv
    cases v <;> simp_all [parse_lookup, containsKey_eq_isSome, Json.isString]
  · intro j hj
    cases j <;> simp [parse_lookup, Json.isObj] at hj ⊢

/-- C2 witness: a W3C response under its key parses to the id (S3 of the
spec). -/
theorem parse_lookup_dialect_key_spec_witness :
    parse_lookup false (Json.obj [(elementKey, Json.str "E-1")]) =
      .ok ⟨"E-1"⟩ :=
  (parse_lookup_dialect_key_spec false [(elementKey, Json.str "E-1")]).1
    "E-1" rfl

/-- C3 (counterexample): the claim says every object inside a traversed
argument containing the W3C element key is renamed; but an element object
*nested* inside an array argument is left untouched by `fixup_elements` —
its W3C key survives (and `elementKey` is not already `ELEMENT`). -/
theorem fixup_elements_nested_not_renamed :
    fixup_elements true [Json.arr [Json.obj [(elementKey, Json.str "E-2")]]] =
      [Json.arr [Json.obj [(elementKey, Json.str "E-2")]]] ∧
    elementKey ≠ "ELEMENT" ∧
    lookupKey [(elementKey, Json.str "E-2")] elementKey =
      some (Json.str "E-2") :=
  ⟨rfl, by decide, rfl⟩

/-- C3 (amended): in the legacy dialect the element-key fixup applies to
each *top-level* argument only: an argument that is itself an object
carrying the W3C key has that binding re-inserted under `ELEMENT` (the
W3C key disappearing when the object has no duplicate keys); any other
argument — including arrays or objects with nested element objects — is
unchanged, and in W3C the argument list is sent unchanged. -/
theorem fixup_elements_top_level_spec (args : List Json) :
    fixup_elements false args = args ∧
    fixup_elements true args = args.map fixup_one ∧
    (∀ v : Json, v.isObj = false → fixup_one v = v) ∧
    (∀ o, lookupKey o elementKey = none → fixup_one (.obj o) = .obj o) ∧
    (∀ o wei, lookupKey o elementKey = some wei →
      fixup_one (.obj o) =
        .obj (insertKey (eraseKey o elementKey) "ELEMENT" wei) ∧
      lookupKey (insertKey (eraseKey o elementKey) "ELEMENT" wei) "ELEMENT" =
        some wei ∧
      ((o.map Prod.fst).Nodup →
        containsKey (insertKey (eraseKey o elementKey) "ELEMENT" wei)
          elementKey = false)) := by
  refine ⟨rfl, rfl, ?_, ?_, ?_⟩
  · intro v hv
    cases v <;> simp [fixup_one, Json.isObj] at hv ⊢
  · intro o h
    simp [fixup_one, h]
  · intro o wei h
    refine ⟨by simp [fixup_one, h], lookupKey_insertKey_self _ _ _, ?_⟩
    intro hnd
    rw [containsKey_insertKey_ne _ _ _ _ (by decide)]
    exact containsKey_eraseKey_nodup o elementKey hnd

/-- C3 witness: a top-level element object is renamed (S4 of the spec). -/
theorem fixup_elements_top_level_spec_witness :
    fixup_one (Json.obj [(elementKey, Json.str "E-2")]) =
      Json.obj [("ELEMENT", Json.str "E-2")] :=
  ((fixup_elements_top_level_spec []).2.2.2.2
    [(elementKey, Json.str "E-2")] (Json.str "E-2") rfl).1

/-- C5: `wait_for_find` retries on `NoSuchElement` only.  Whenever the
loop terminates, its outcome is never a `NoSuchElement` error, and the
outcome is the first `by` outcome that was not a `NoSuchElement` error —
every earlier issue failed with `NoSuchElement`. -/
theorem wait_for_find_spec (is_legacy : Bool)
    (rs : List (Except CmdError Json)) (out : Except CmdError WebElement)
    (h : wait_for_find is_legacy rs = some out) :
    (∀ e, out = .error e → e.isNoSuchElement = false) ∧
    (∃ pre r post, rs = pre ++ r :: post ∧ out = byOutcome is_legacy r ∧
      ∀ r' ∈ pre, ∃ e, byOutcome is_legacy r' = .error e ∧
        e.isNoSuchElement = true) := by
  induction rs with
  | nil => exact absurd h (by simp [wait_for_find])
  | cons r rest ih =>
    unfold wait_for_find at h
    split at h
    next e heq =>
      simp only [Option.some.injEq] at h
      subst h
      exact ⟨by intro e' he'; exact absurd he' (by simp), [], r, rest, by
        simp, heq.symm, by simp⟩
    next err heq =>
      by_cases hn : err.isNoSuchElement = true
      · rw [if_pos hn] at h
        obtain ⟨h1, pre, r', post, hsplit, hout, hpre⟩ := ih h
        refine ⟨h1, r :: pre, r', post, by simp [hsplit], hout, ?_⟩
        intro r'' hr''
        rcases List.mem_cons.mp hr'' with hrr | hmem
        · exact ⟨err, by rw [hrr]; exact heq, hn⟩
        · exact hpre r'' hmem
      · rw [if_neg hn] at h
        simp only [Option.some.injEq] at h
        subst h
        refine ⟨?_, [], r, rest, by simp, heq.symm, by simp⟩
        intro e' he'
        injection he' with h2
        subst h2
        cases hx : err.isNoSuchElement
        · rfl
        · exact absurd hx hn

/-- C5 witness: S7 of the spec — two `no such element` failures, then a
found element; the loop resolves with that element, with both earlier
issues having failed with `NoSuchElement`. -/
theorem wait_for_find_spec_witness :
    (∀ e, (Except.ok ⟨"E-3"⟩ : Except CmdError WebElement) = .error e →
      e.isNoSuchElement = false) ∧
    (∃ pre r post,
      ([.error (.NoSuchElement "a"), .error (.NoSuchElement "b"),
        .ok (Json.obj [(elementKey, Json.str "E-3")])] :
          List (Except CmdError Json)) = pre ++ r :: post ∧
      (Except.ok ⟨"E-3"⟩ : Except CmdError WebElement) =
        byOutcome false r ∧
      ∀ r' ∈ pre, ∃ e, byOutcome false r' = .error e ∧
        e.isNoSuchElement = true) :=
  wait_for_find_spec false
    [.error (.NoSuchElement "a"), .error (.NoSuchElement "b"),
      .ok (Json.obj [(elementKey, Json.str "E-3")])]
    (.ok ⟨"E-3"⟩) rfl

/-- C10: `find_all` is all-or-nothing.  A non-array response is `NotW3C`;
an ok result pairs entries and elements one-to-one in order
(`List.Forall₂`), and conversely; any failing entry fails the whole call
with a `NotW3C` error coming from one of the entries; an issue error is
surfaced as-is. -/
theorem find_all_all_or_nothing (is_legacy : Bool) (res : Json) :
    (res.isArr = false →
      find_all is_legacy (.ok res) = .error (.NotW3C res)) ∧
    (∀ xs es, res = .arr xs → find_all is_legacy (.ok res) = .ok es →
      List.Forall₂ (fun j e => parse_lookup is_legacy j = .ok e) xs es) ∧
    (∀ xs es, res = .arr xs →
      List.Forall₂ (fun j e => parse_lookup is_legacy j = .ok e) xs es →
      find_all is_legacy (.ok res) = .ok es) ∧
    (∀ xs e, res = .arr xs → find_all is_legacy (.ok res) = .error e →
      (∃ v, e = .NotW3C v) ∧
        ∃ j ∈ xs, parse_lookup is_legacy j = .error e) ∧
    (∀ e : CmdError, find_all is_legacy (.error e) = .error e) := by
  refine ⟨?_, ?_, ?_, ?_, fun _ => rfl⟩
  · intro h
    cases res <;> simp_all [find_all, parse_lookup_all, Json.isArr]
  · intro xs es hres h
    subst hres
    simp only [find_all, parse_lookup_all] at h
    exact (lookupAllLoop_ok_iff is_legacy xs es).mp h
  · intro xs es hres h
    subst hres
    simp only [find_all, parse_lookup_all]
    exact (lookupAllLoop_ok_iff is_legacy xs es).mpr h
  · intro xs e hres h
    subst hres
    simp only [find_all, parse_lookup_all] at h
    exact lookupAllLoop_error is_legacy xs e h

/-- C10 witness: a two-entry W3C response yields exactly the two elements
in order. -/
theorem find_all_all_or_nothing_witness :
    find_all false (.ok (Json.arr
      [Json.obj [(elementKey, Json.str "E-1")],
       Json.obj [(elementKey, Json.str "E-2")]])) =
      .ok [⟨"E-1"⟩, ⟨"E-2"⟩] :=
  (find_all_all_or_nothing false (Json.arr
      [Json.obj [(elementKey, Json.str "E-1")],
       Json.obj [(elementKey, Json.str "E-2")]])).2.2.1
    [Json.obj [(elementKey, Json.str "E-1")],
     Json.obj [(elementKey, Json.str "E-2")]]
    [⟨"E-1"⟩, ⟨"E-2"⟩] rfl
    (List.Forall₂.cons rfl (List.Forall₂.cons rfl List.Forall₂.nil))

/-- C1: with all preceding choreography steps succeeding and `GetCookies`
returning an array, a fully well-formed cookie list leads to exactly one
raw request whose `Cookie` header is the encoded `name=value` pair of each
cookie, in list order, joined with `"; "` — and any malformed entry fails
the whole operation with `NotW3C` of the raw cookie JSON, with no raw
request in the trace. -/
theorem with_raw_client_for_cookie_header {ρ : Type}
    (join : String → String → Except CmdError String) (enc : String → String)
    (before : RawRequest → RawRequest) (method url : String) (env : RawEnv ρ)
    (old target decoy : String) (cs : List Json) (ua : Option String)
    (h1 : env.currentUrl = .ok old) (h2 : join old url = .ok target)
    (h3 : join target "/please_give_me_your_cookies" = .ok decoy)
    (h4 : env.gotoResult = .ok ()) (h5 : env.cookiesResult = .ok (.arr cs))
    (h6 : env.backResult = .ok ()) (h7 : env.uaResult = .ok ua) :
    (cs.all wellFormedCookie = true →
      with_raw_client_for join enc before method url env =
        ([.currentUrl, .goto decoy, .getCookies, .back, .getUa,
          .raw (before ⟨method, target,
            String.intercalate "; " (cs.map (cookiePair enc)), ua⟩)],
         env.rawResult (before ⟨method, target,
            String.intercalate "; " (cs.map (cookiePair enc)), ua⟩))) ∧
    (cs.all wellFormedCookie = false →
      with_raw_client_for join enc before method url env =
        ([.currentUrl, .goto decoy, .getCookies, .back, .getUa],
         .error (.NotW3C (.arr cs)))) := by
  constructor
  · intro hwf
    simp [with_raw_client_for, h1, h2, h3, h4, h5, h6, h7,
      buildJar_all_wf enc cs hwf]
  · intro hwf
    simp [with_raw_client_for, h1, h2, h3, h4, h5, h6, h7,
      buildJar_not_wf enc cs hwf]

/-- C1 witness: S5 of the spec — two cookies `s=1`, `t=2` produce one raw
request with `Cookie: s=1; t=2`. -/
theorem with_raw_client_for_cookie_header_witness :
    with_raw_client_for (ρ := Nat)
      (fun _ r => .ok (if r = "/please_give_me_your_cookies" then
        "http://ex.com/please_give_me_your_cookies" else r))
      id id "GET" "http://ex.com/download"
      { currentUrl := .ok "http://ex.com/a", gotoResult := .ok (),
        cookiesResult := .ok (Json.arr
          [Json.obj [("name", Json.str "s"), ("value", Json.str "1")],
           Json.obj [("name", Json.str "t"), ("value", Json.str "2")]]),
        backResult := .ok (), uaResult := .ok none,
        rawResult := fun _ => .ok 0 } =
      ([.currentUrl, .goto "http://ex.com/please_give_me_your_cookies",
        .getCookies, .back, .getUa,
        .raw ⟨"GET", "http://ex.com/download", "s=1; t=2", none⟩], .ok 0) :=
  (with_raw_client_for_cookie_header
      (fun _ r => .ok (if r = "/please_give_me_your_cookies" then
        "http://ex.com/please_give_me_your_cookies" else r))
      id id "GET" "http://ex.com/download"
      { currentUrl := .ok "http://ex.com/a", gotoResult := .ok (),
        cookiesResult := .ok (Json.arr
          [Json.obj [("name", Json.str "s"), ("value", Json.str "1")],
           Json.obj [("name", Json.str "t"), ("value", Json.str "2")]]),
        backResult := .ok (), uaResult := .ok none,
        rawResult := fun _ => .ok 0 }
      "http://ex.com/a" "http://ex.com/download"
      "http://ex.com/please_give_me_your_cookies"
      [Json.obj [("name", Json.str "s"), ("value", Json.str "1")],
       Json.obj [("name", Json.str "t"), ("value", Json.str "2")]]
      none rfl rfl rfl rfl rfl rfl rfl).1 rfl

/-- C4: when the steps up to the decoy navigation succeed and `GetCookies`
fails — with a command error, or with an ok value that is not a JSON
array — `with_raw_client_for` surfaces that error (`NotW3C` with the raw
value in the non-array case) and the trace stops at `GetCookies`: no
`Back` step is issued after the `Goto` to the decoy URL. -/
theorem with_raw_client_for_no_back_on_cookie_failure {ρ : Type}
    (join : String → String → Except CmdError String) (enc : String → String)
    (before : RawRequest → RawRequest) (method url : String) (env : RawEnv ρ)
    (old target decoy : String)
    (h1 : env.currentUrl = .ok old) (h2 : join old url = .ok target)
    (h3 : join target "/please_give_me_your_cookies" = .ok decoy)
    (h4 : env.gotoResult = .ok ()) :
    (∀ e, env.cookiesResult = .error e →
      with_raw_client_for join enc before method url env =
        ([.currentUrl, .goto decoy, .getCookies], .error e)) ∧
    (∀ v, env.cookiesResult = .ok v → v.isArr = false →
      with_raw_client_for join enc before method url env =
        ([.currentUrl, .goto decoy, .getCookies], .error (.NotW3C v))) ∧
    IssuedCmd.back ∉
      [IssuedCmd.currentUrl, IssuedCmd.goto decoy, IssuedCmd.getCookies] := by
  refine ⟨?_, ?_, by simp⟩
  · intro e he
    simp [with_raw_client_for, h1, h2, h3, h4, he]
  · intro v hv hna
    cases v <;> simp_all [with_raw_client_for, h1, h2, h3, h4, Json.isArr]

/-- C4 witness: `GetCookies` answering a bare string makes the operation
fail with `NotW3C` of that value, the trace ending before any `Back`. -/
theorem with_raw_client_for_no_back_witness :
    with_raw_client_for (ρ := Nat) (fun _ r => .ok r) id id "GET" "u"
      { currentUrl := .ok "http://ex.com/a", gotoResult := .ok (),
        cookiesResult := .ok (Json.str "nope"),
        backResult := .ok (), uaResult := .ok none,
        rawResult := fun _ => .ok 0 } =
      ([.currentUrl, .goto "/please_give_me_your_cookies", .getCookies],
        .error (.NotW3C (Json.str "nope"))) ∧
    IssuedCmd.back ∉
      [IssuedCmd.currentUrl, IssuedCmd.goto "/please_give_me_your_cookies",
        IssuedCmd.getCookies] :=
  ⟨(with_raw_client_for_no_back_on_cookie_failure
      (fun _ r => .ok r) id id "GET" "u"
      { currentUrl := .ok "http://ex.com/a", gotoResult := .ok (),
        cookiesResult := .ok (Json.str "nope"),
        backResult := .ok (), uaResult := .ok none,
        rawResult := fun _ => .ok 0 }
      "http://ex.com/a" "u" "/please_give_me_your_cookies"
      rfl rfl rfl rfl).2.1 (Json.str "nope") rfl rfl,
   (with_raw_client_for_no_back_on_cookie_failure
      (fun _ r => .ok r) id id "GET" "u"
      { currentUrl := .ok "http://ex.com/a", gotoResult := .ok (),
        cookiesResult := .ok (Json.str "nope"),
        backResult := .ok (), uaResult := .ok none,
        rawResult := fun _ => .ok 0 }
      "http://ex.com/a" "u" "/please_give_me_your_cookies"
      rfl rfl rfl rfl).2.2⟩

/-- C6: `goto` resolves the user URL against the current browser URL by
the URL library's join, the empty current URL standing in for
`about:blank`; in particular, when joining the empty reference onto a base
returns that base (standard join semantics), `Goto("")` from an
empty-current-URL session navigates to `about:blank`.  A non-string
current-URL response is `NotW3C`. -/
theorem goto_resolution_spec {U : Type} (parse : String → Except CmdError U)
    (join : U → String → Except CmdError U) (toStr : U → String) (ab : U)
    (hab : parse "about:blank" = .ok ab) :
    (∀ url, goto_target parse join toStr (.str "") url =
      match join ab url with
      | .error e => .error e
      | .ok u => .ok (toStr u)) ∧
    (join ab "" = .ok ab → toStr ab = "about:blank" →
      goto_target parse join toStr (.str "") "" = .ok "about:blank") ∧
    (∀ s url b u, s ≠ "" → parse s = .ok b → join b url = .ok u →
      goto_target parse join toStr (.str s) url = .ok (toStr u)) ∧
    (∀ (v : Json) url, v.isString = false →
      goto_target parse join toStr v url = .error (.NotW3C v)) := by
  refine ⟨?_, ?_, ?_, ?_⟩
  · intro url
    simp [goto_target, current_url_, hab]
  · intro hj ht
    simp [goto_target, current_url_, hab, hj, ht]
  · intro s url b u hs hp hj
    simp [goto_target, current_url_, hs, hp, hj]
  · intro v url hv
    cases v <;> simp [goto_target, current_url_, Json.isString] at hv ⊢

/-- C6 witness: instantiating the URL boundary with a join that returns
the base on the empty reference, `Goto("")` with an empty current URL
resolves to `about:blank`. -/
theorem goto_resolution_spec_witness :
    goto_target (fun s => .ok s)
      (fun b r => .ok (if r = "" then b else r)) id (Json.str "") "" =
      .ok "about:blank" :=
  (goto_resolution_spec (fun s => .ok s)
    (fun b r => .ok (if r = "" then b else r)) id "about:blank" rfl).2.1
    rfl rfl

/-- C7: `screenshot` and `screenshot_element` run the same decoding path:
a string response yields exactly the base64-decoded bytes, unvalidated;
the result is `ImageDecodeError` precisely when the response is a string
the decoder rejects, and a non-string response is `NotW3C` with the
value. -/
theorem screenshot_decode_spec (decode : String → Option (List Nat))
    (src : Json) :
    screenshot decode src = screenshot_element decode src ∧
    (∀ s bytes, src = .str s → decode s = some bytes →
      screenshot decode src = .ok bytes) ∧
    (∀ s, src = .str s → decode s = none →
      screenshot decode src = .error .ImageDecodeError) ∧
    (src.isString = false → screenshot decode src = .error (.NotW3C src)) ∧
    (screenshot decode src = .error .ImageDecodeError ↔
      ∃ s, src = .str s ∧ decode s = none) := by
  refine ⟨rfl, ?_, ?_, ?_, ?_, ?_⟩
  · intro s bytes h1 h2
    subst h1
    simp [screenshot, h2]
  · intro s h1 h2
    subst h1
    simp [screenshot, h2]
  · intro h
    cases src <;> simp [screenshot, Json.isString] at h ⊢
  · intro h
    cases src
    case str s =>
      cases hd : decode s with
      | none => exact ⟨s, rfl, hd⟩
      | some b => simp [screenshot, hd] at h
    all_goals simp [screenshot] at h
  · rintro ⟨s, rfl, hd⟩
    simp [screenshot, hd]

/-- C7 witness: a decodable string response yields the decoded bytes. -/
theorem screenshot_decode_spec_witness :
    screenshot (fun s => if s = "AA" then some [0] else none)
      (Json.str "AA") = .ok [0] :=
  (screenshot_decode_spec (fun s => if s = "AA" then some [0] else none)
    (Json.str "AA")).2.1 "AA" [0] rfl rfl

/-- C8: `set_window_size` sends `SetWindowRect` with `x` and `y` null and
only the dimensions populated; `set_window_position` sends null `width`
and `height` with only the coordinates populated — no default coordinates
substituted for the omitted axes. -/
theorem set_window_size_position_nulls (x y width height : Nat) :
    (∃ p, set_window_size_cmd width height = .SetWindowRect p ∧
      p.x = none ∧ p.y = none ∧
      p.width = some (u32AsI32 width) ∧ p.height = some (u32AsI32 height)) ∧
    (∃ q, set_window_position_cmd x y = .SetWindowRect q ∧
      q.x = some (u32AsI32 x) ∧ q.y = some (u32AsI32 y) ∧
      q.width = none ∧ q.height = none) :=
  ⟨⟨_, rfl, rfl, rfl, rfl, rfl⟩, ⟨_, rfl, rfl, rfl, rfl, rfl⟩⟩

/-- C9: `get_window_size` is exactly the (width, height) projection of
`get_window_rect`, and `get_window_position` its (x, y) projection; each
derived operation fails with exactly the errors of `get_window_rect`. -/
theorem get_window_size_position_refine_rect (res : Json) :
    (∀ x y w h, get_window_rect res = .ok (x, y, w, h) →
      get_window_size res = .ok (w, h) ∧
      get_window_position res = .ok (x, y)) ∧
    (∀ e, get_window_size res = .error e ↔ get_window_rect res = .error e) ∧
    (∀ e, get_window_position res = .error e ↔
      get_window_rect res = .error e) := by
  refine ⟨?_, ?_, ?_⟩
  · intro x y w h hr
    exact ⟨by simp [get_window_size, hr], by simp [get_window_position, hr]⟩
  · intro e
    cases hr : get_window_rect res with
    | error e' => simp [get_window_size, hr]
    | ok t =>
      obtain ⟨x, y, w, h⟩ := t
      simp [get_window_size, hr]
  · intro e
    cases hr : get_window_rect res with
    | error e' => simp [get_window_position, hr]
    | ok t =>
      obtain ⟨x, y, w, h⟩ := t
      simp [get_window_position, hr]

/-- C9 witness: on a full rect response, size and position are the
projections of the rect. -/
theorem get_window_size_position_refine_rect_witness :
    get_window_size (Json.obj [("x", Json.num 1), ("y", Json.num 2),
      ("width", Json.num 3), ("height", Json.num 4)]) = .ok (3, 4) ∧
    get_window_position (Json.obj [("x", Json.num 1), ("y", Json.num 2),
      ("width", Json.num 3), ("height", Json.num 4)]) = .ok (1, 2) :=
  (get_window_size_position_refine_rect
    (Json.obj [("x", Json.num 1), ("y", Json.num 2),
      ("width", Json.num 3), ("height", Json.num 4)])).1 1 2 3 4 rfl

end Fantoccini
